import Mathlib

/-!
Shallow embedding of the injecfn library: `requiredSymbol`, `required` and
`defineFn` from src/index.ts, and the earlier builder entry points `fn` and
`fnWithDefaults` from src/unnamed/part_001.  Objects are modelled as ordered
lists of own enumerable string-keyed properties, and the object spread used
by the constructors is modelled property by property (CopyDataProperties).
-/

/-- Runtime values stored in dependency descriptors, overrides and resolved
bags.  The constructor `sym s` stands for a JavaScript symbol with
description `s`; the `Symbol` call in src/index.ts line 5 runs once at
module load, so identity comparison on that one symbol coincides with
equality on this constructor.  The constructor `undef` is the JavaScript
value for an undefined entry. -/
inductive JSValue where
  | undef
  | nullv
  | boolv (b : Bool)
  | num (n : Int)
  | str (s : String)
  | sym (description : String)
  deriving DecidableEq

/-- A JavaScript object, as the ordered list of its own enumerable
string-keyed properties. -/
abbrev JSObj := List (String × JSValue)

/-- Property read: the value at the first occurrence of key `k` (an actual
JavaScript object holds each key at most once). -/
def getOwn : JSObj → String → Option JSValue
  | [], _ => none
  | (k₁, v) :: rest, k => if k = k₁ then some v else getOwn rest k

/-- Key-presence test on an object. -/
def hasKey (o : JSObj) (k : String) : Bool :=
  (getOwn o k).isSome

/-- Write of one property, as performed for each source property during an
object spread: an existing key keeps its position and receives the new
value, a fresh key is appended at the end.  A JavaScript object holds each
key at most once, so updating the first occurrence is the general case. -/
def setKey : JSObj → String → JSValue → JSObj
  | [], k, v => [(k, v)]
  | (k₁, v₁) :: rest, k, v =>
    if k = k₁ then (k₁, v) :: rest else (k₁, v₁) :: setKey rest k v

/-- The spread `{ ...d, ...o }`: copy `d`, then set every own enumerable
property of `o` in order. -/
def spread2 (d o : JSObj) : JSObj :=
  o.foldl (fun acc p => setKey acc p.1 p.2) d

/-- The runtime shapes the constructor argument can take: a plain object,
a function deriving an override mapping from the defaults, or the argument
omitted entirely (so that the parameter holds the undefined value). -/
inductive Override where
  | obj (o : JSObj)
  | func (g : JSObj → JSObj)
  | absent

/-- Embeds `requiredSymbol` of src/index.ts line 5: the unique module-level
symbol with description required, created once at module load. -/
def requiredSymbol : JSValue := JSValue.sym "required"

/-- Embeds `required` of src/index.ts lines 22-24: the type parameter is
erased at runtime and the one shared `requiredSymbol` is returned. -/
def required (_ : Type) : JSValue := requiredSymbol

/-- Dependency resolution performed by the constructor returned by
`defineFn` (src/index.ts lines 109-117): the bag is the spread of
`requirements` over `dependencies`.  Spreading the undefined value (the
argument was omitted) copies no properties; spreading a plain function
value copies its own enumerable properties, of which a plain function has
none, and never invokes it.  The second component lists the arguments with
which a function-shaped `requirements` was invoked during resolution; for
this entry point that list is always empty. -/
def defineFnResolve (dependencies : JSObj) : Override → JSObj × List JSObj
  | .obj o => (spread2 dependencies o, [])
  | .func _ => (spread2 dependencies [], [])
  | .absent => (spread2 dependencies [], [])

/-- Dependency resolution performed by the constructor returned by
`FnConstructorBuilder.fnWithDefaults` (src/unnamed/part_001 lines 37-44):
when `deps` is a function it is applied to `defaults` and the result is
spread over `defaults`, otherwise `deps` itself is spread over `defaults`.
The second component records each invocation of a function-shaped `deps`
together with the argument it received. -/
def fnWithDefaultsResolve (defaults : JSObj) : Override → JSObj × List JSObj
  | .obj o => (spread2 defaults o, [])
  | .func g => (spread2 defaults (g defaults), [defaults])
  | .absent => (spread2 defaults [], [])

/-- Semantics of binding `f` with a null receiver and `deps` preset, as the
constructors do: applying the bound function to positional arguments
`args` performs exactly the single call of `f` at `deps` followed by
`args` and returns its result; the second component records the calls made
to `f` during this one application. -/
def bindNull {R : Type} (f : JSObj → List JSValue → R) (deps : JSObj) :
    List JSValue → R × List (JSObj × List JSValue) :=
  fun args => (f deps args, [(deps, args)])

/-- Embeds `defineFn` (src/index.ts lines 101-123): the returned
constructor resolves the bag from its argument and binds the bag as the
first argument of `f`. -/
def defineFn {R : Type} (dependencies : JSObj) (f : JSObj → List JSValue → R)
    (requirements : Override) :
    List JSValue → R × List (JSObj × List JSValue) :=
  bindNull f (defineFnResolve dependencies requirements).1

/-- Embeds `FnConstructorBuilder.fn` (src/unnamed/part_001 lines 23-27):
the dependencies object is bound directly, with no merge at all. -/
def builderFn {R : Type} (f : JSObj → List JSValue → R) (deps : JSObj) :
    List JSValue → R × List (JSObj × List JSValue) :=
  bindNull f deps

/-- Embeds the full `fnWithDefaults` constructor: resolve against the
defaults, then bind the bag as the first argument of `f`. -/
def builderFnWithDefaults {R : Type} (defaults : JSObj)
    (f : JSObj → List JSValue → R) (deps : Override) :
    List JSValue → R × List (JSObj × List JSValue) :=
  bindNull f (fnWithDefaultsResolve defaults deps).1

/-- Two successive calls of one `defineFn` constructor with overrides `o1`
then `o2`.  The third component is the descriptor after both calls: the
spread in the constructor only reads `dependencies` and builds a fresh
object, so the descriptor is handed back unchanged. -/
def constructTwice {R : Type} (dependencies : JSObj)
    (f : JSObj → List JSValue → R) (o1 o2 : Override) :
    (List JSValue → R × List (JSObj × List JSValue))
      × (List JSValue → R × List (JSObj × List JSValue)) × JSObj :=
  (defineFn dependencies f o1, defineFn dependencies f o2, dependencies)

/-! Lemmas about property lookup through a spread. -/

theorem getOwn_setKey (d : JSObj) (k : String) (v : JSValue) (k₂ : String) :
    getOwn (setKey d k v) k₂ = if k₂ = k then some v else getOwn d k₂ := by
  induction d with
  | nil => by_cases h : k₂ = k <;> simp [setKey, getOwn, h]
  | cons p rest ih =>
    obtain ⟨k₁, v₁⟩ := p
    by_cases h1 : k = k₁
    · subst h1
      by_cases h2 : k₂ = k <;> simp [setKey, getOwn, h2]
    · by_cases h2 : k₂ = k₁
      · subst h2
        have hne : ¬k₂ = k := fun he => h1 he.symm
        simp [setKey, getOwn, h1, hne]
      · by_cases h3 : k₂ = k
        · subst h3
          simp [setKey, getOwn, h1, h2, ih]
        · simp [setKey, getOwn, h1, h2, h3, ih]

theorem hasKey_false_of_not_mem (o : JSObj) (k : String)
    (h : k ∉ o.map Prod.fst) : hasKey o k = false := by
  induction o with
  | nil => rfl
  | cons p rest ih =>
    obtain ⟨k₁, v₁⟩ := p
    simp only [List.map_cons, List.mem_cons] at h
    push_neg at h
    have hr := ih h.2
    simp only [hasKey, getOwn] at hr ⊢
    rw [if_neg h.1]
    exact hr

theorem getOwn_spread2 (d o : JSObj) (h : (o.map Prod.fst).Nodup)
    (k : String) :
    getOwn (spread2 d o) k =
      if hasKey o k then getOwn o k else getOwn d k := by
  induction o generalizing d with
  | nil => simp [spread2, hasKey, getOwn]
  | cons p rest ih =>
    obtain ⟨k₁, v₁⟩ := p
    simp only [List.map_cons, List.nodup_cons] at h
    have hstep : spread2 d ((k₁, v₁) :: rest) = spread2 (setKey d k₁ v₁) rest :=
      rfl
    rw [hstep, ih (setKey d k₁ v₁) h.2]
    by_cases hk : k = k₁
    · subst hk
      have hrest : hasKey rest k = false := hasKey_false_of_not_mem rest k h.1
      simp only [hasKey] at hrest
      simp [hasKey, getOwn, hrest, getOwn_setKey]
    · simp [hasKey, getOwn, hk, getOwn_setKey]

theorem hasKey_spread2 (d o : JSObj) (h : (o.map Prod.fst).Nodup)
    (k : String) :
    hasKey (spread2 d o) k = (hasKey o k || hasKey d k) := by
  have hg := getOwn_spread2 d o h k
  cases hh : hasKey o k with
  | true =>
    rw [hh] at hg
    simp only [if_pos] at hg
    rw [Bool.true_or]
    simp only [hasKey] at hh ⊢
    rw [hg]
    exact hh
  | false =>
    rw [hh] at hg
    simp only [Bool.false_eq_true, if_false] at hg
    rw [Bool.false_or]
    simp only [hasKey]
    rw [hg]

/-! Claim theorems. -/

/-- C1: merge precedence — for every descriptor `D` and object-shaped
override `O`, the bag produced by the constructor of `defineFn` (and the
one of `fnWithDefaults`) holds the override value at every key of `O` and
the descriptor value at every key outside `O`. -/
theorem c1_merge_precedence (D O : JSObj) (k : String)
    (h : (O.map Prod.fst).Nodup) :
    getOwn (defineFnResolve D (.obj O)).1 k
        = (if hasKey O k then getOwn O k else getOwn D k)
      ∧ getOwn (fnWithDefaultsResolve D (.obj O)).1 k
        = (if hasKey O k then getOwn O k else getOwn D k) :=
  ⟨getOwn_spread2 D O h k, getOwn_spread2 D O h k⟩

theorem c1_merge_precedence_witness :
    ([("b", JSValue.num 3)].map Prod.fst).Nodup
      ∧ (getOwn (defineFnResolve [("a", JSValue.num 1), ("b", JSValue.num 2)]
            (.obj [("b", JSValue.num 3)])).1 "b"
          = (if hasKey [("b", JSValue.num 3)] "b"
              then getOwn [("b", JSValue.num 3)] "b"
              else getOwn [("a", JSValue.num 1), ("b", JSValue.num 2)] "b")
        ∧ getOwn (fnWithDefaultsResolve
              [("a", JSValue.num 1), ("b", JSValue.num 2)]
              (.obj [("b", JSValue.num 3)])).1 "b"
          = (if hasKey [("b", JSValue.num 3)] "b"
              then getOwn [("b", JSValue.num 3)] "b"
              else getOwn [("a", JSValue.num 1), ("b", JSValue.num 2)] "b")) :=
  ⟨by decide,
    c1_merge_precedence [("a", JSValue.num 1), ("b", JSValue.num 2)]
      [("b", JSValue.num 3)] "b" (by decide)⟩

/-- C2: stale-sentinel propagation — a key bound to the required sentinel
in the descriptor and omitted from an object-shaped override is resolved
without any runtime presence check, and the bag still holds the sentinel
there. -/
theorem c2_stale_sentinel (D O : JSObj) (k : String)
    (hnd : (O.map Prod.fst).Nodup)
    (hreq : getOwn D k = some requiredSymbol)
    (homit : hasKey O k = false) :
    getOwn (defineFnResolve D (.obj O)).1 k = some requiredSymbol := by
  have hg := getOwn_spread2 D O hnd k
  rw [homit] at hg
  simp only [Bool.false_eq_true, if_false] at hg
  show getOwn (spread2 D O) k = some requiredSymbol
  rw [hg, hreq]

theorem c2_stale_sentinel_witness :
    (([] : JSObj).map Prod.fst).Nodup
      ∧ getOwn [("db", requiredSymbol)] "db" = some requiredSymbol
      ∧ hasKey ([] : JSObj) "db" = false
      ∧ getOwn (defineFnResolve [("db", requiredSymbol)] (.obj [])).1 "db"
        = some requiredSymbol :=
  ⟨by decide, by decide, by decide,
    c2_stale_sentinel [("db", requiredSymbol)] [] "db"
      (by decide) (by decide) (by decide)⟩

/-- C3 counterexample: the constructor returned by `defineFn`, handed a
function-shaped override, never invokes it (the call record is empty) and
ignores its return value: the resolved bag keeps the descriptor value at
the key the function tried to override. -/
theorem c3_function_override_counterexample :
    (defineFnResolve [("a", JSValue.num 1)]
        (.func (fun _ => [("a", JSValue.num 99)]))).2 = []
      ∧ getOwn (defineFnResolve [("a", JSValue.num 1)]
          (.func (fun _ => [("a", JSValue.num 99)]))).1 "a"
        = some (JSValue.num 1) :=
  ⟨rfl, by decide⟩

/-- C3 amended: the `fnWithDefaults` constructor invokes a function-shaped
override exactly once, with the original defaults object unmodified, and
merges its return value override-wins over the defaults; the `defineFn`
constructor never invokes a function-shaped override and resolves to the
descriptor alone. -/
theorem c3_function_override_amended (defaults : JSObj) (g : JSObj → JSObj)
    (k : String) (h : ((g defaults).map Prod.fst).Nodup) :
    (fnWithDefaultsResolve defaults (.func g)).2 = [defaults]
      ∧ getOwn (fnWithDefaultsResolve defaults (.func g)).1 k
        = (if hasKey (g defaults) k then getOwn (g defaults) k
            else getOwn defaults k)
      ∧ (defineFnResolve defaults (.func g)).2 = []
      ∧ (defineFnResolve defaults (.func g)).1 = defaults :=
  ⟨rfl, getOwn_spread2 defaults (g defaults) h k, rfl, rfl⟩

theorem c3_function_override_amended_witness :
    (((fun _ => [("b", JSValue.num 2)] : JSObj → JSObj)
        [("a", JSValue.num 1)]).map Prod.fst).Nodup
      ∧ ((fnWithDefaultsResolve [("a", JSValue.num 1)]
            (.func (fun _ => [("b", JSValue.num 2)]))).2
          = [[("a", JSValue.num 1)]]
        ∧ getOwn (fnWithDefaultsResolve [("a", JSValue.num 1)]
              (.func (fun _ => [("b", JSValue.num 2)]))).1 "b"
          = (if hasKey ((fun _ => [("b", JSValue.num 2)] : JSObj → JSObj)
                  [("a", JSValue.num 1)]) "b"
              then getOwn ((fun _ => [("b", JSValue.num 2)] : JSObj → JSObj)
                  [("a", JSValue.num 1)]) "b"
              else getOwn [("a", JSValue.num 1)] "b")
        ∧ (defineFnResolve [("a", JSValue.num 1)]
              (.func (fun _ => [("b", JSValue.num 2)]))).2 = []
        ∧ (defineFnResolve [("a", JSValue.num 1)]
              (.func (fun _ => [("b", JSValue.num 2)]))).1
          = [("a", JSValue.num 1)]) :=
  ⟨by decide,
    c3_function_override_amended [("a", JSValue.num 1)]
      (fun _ => [("b", JSValue.num 2)]) "b" (by decide)⟩

/-- C4: arity preservation — applying the callable built by the `defineFn`
constructor (or by the builder `fn` constructor) to positional arguments
performs exactly one call of the implementation, with the resolved bag
prepended to the unmodified argument list, and hands back its result
unchanged. -/
theorem c4_arity_preservation {R : Type} (D : JSObj)
    (f : JSObj → List JSValue → R) (ov : Override) (args : List JSValue)
    (deps : JSObj) :
    defineFn D f ov args
        = (f (defineFnResolve D ov).1 args, [((defineFnResolve D ov).1, args)])
      ∧ builderFn f deps args = (f deps args, [(deps, args)])
      ∧ builderFnWithDefaults D f ov args
        = (f (fnWithDefaultsResolve D ov).1 args,
            [((fnWithDefaultsResolve D ov).1, args)]) :=
  ⟨rfl, rfl, rfl⟩

/-- C5: defaults-only identity — with the override argument omitted, a
descriptor none of whose keys is bound to the required sentinel resolves
to exactly itself, with an empty call record. -/
theorem c5_defaults_identity (D : JSObj)
    (h : ∀ p ∈ D, p.2 ≠ requiredSymbol) :
    defineFnResolve D .absent = (D, []) :=
  rfl

theorem c5_defaults_identity_witness :
    (∀ p ∈ [("msg", JSValue.str "x")], p.2 ≠ requiredSymbol)
      ∧ defineFnResolve [("msg", JSValue.str "x")] .absent
        = ([("msg", JSValue.str "x")], []) :=
  ⟨by decide, c5_defaults_identity [("msg", JSValue.str "x")] (by decide)⟩

/-- C6 counterexample: for the descriptor binding db to the required
sentinel and with the override argument omitted, the constructor performs
no missing-dependency check at all — resolution completes and silently
passes the sentinel through into the bag. -/
theorem c6_fail_fast_counterexample :
    defineFnResolve [("db", requiredSymbol)] .absent
        = ([("db", requiredSymbol)], [])
      ∧ getOwn (defineFnResolve [("db", requiredSymbol)] .absent).1 "db"
        = some requiredSymbol :=
  ⟨rfl, by decide⟩

/-- C6 amended: with the override argument omitted, the constructor
performs no runtime presence check — it resolves successfully and every
key bound to the required sentinel still holds the sentinel in the bag. -/
theorem c6_no_runtime_check (D : JSObj) (k : String)
    (h : getOwn D k = some requiredSymbol) :
    getOwn (defineFnResolve D .absent).1 k = some requiredSymbol :=
  h

theorem c6_no_runtime_check_witness :
    getOwn [("db", requiredSymbol)] "db" = some requiredSymbol
      ∧ getOwn (defineFnResolve [("db", requiredSymbol)] .absent).1 "db"
        = some requiredSymbol :=
  ⟨by decide, c6_no_runtime_check [("db", requiredSymbol)] "db" (by decide)⟩

/-- C7: unique shared sentinel — `required` returns the single module-level
`requiredSymbol` whatever its type parameter, so any two calls yield the
identical payload-free token. -/
theorem c7_unique_sentinel (T₁ T₂ : Type) :
    required T₁ = required T₂ ∧ required T₁ = requiredSymbol :=
  ⟨rfl, rfl⟩

/-- C8: no mutation and no cross-contamination — two constructions from
one descriptor hand the descriptor back unchanged, the first callable is
the same function whatever the second override is, and it stays bound to
the bag computed from the descriptor and its own override only. -/
theorem c8_no_cross_contamination {R : Type} (D : JSObj)
    (f : JSObj → List JSValue → R) (o1 o2 o2x : Override)
    (args : List JSValue) :
    (constructTwice D f o1 o2).2.2 = D
      ∧ (constructTwice D f o1 o2).1 = (constructTwice D f o1 o2x).1
      ∧ (constructTwice D f o1 o2).1 args
        = (f (defineFnResolve D o1).1 args, [((defineFnResolve D o1).1, args)])
      ∧ (constructTwice D f o1 o2).2.1 args
        = (f (defineFnResolve D o2).1 args,
            [((defineFnResolve D o2).1, args)]) :=
  ⟨rfl, rfl, rfl, rfl⟩

/-- C9 counterexample: an override the constructor accepts may carry a key
outside the descriptor, and that key then appears in the resolved bag, so
the bag key space can properly exceed the descriptor key space. -/
theorem c9_key_space_counterexample :
    hasKey (defineFnResolve [("a", JSValue.num 1)]
        (.obj [("a", JSValue.num 5), ("b", JSValue.num 2)])).1 "b" = true
      ∧ hasKey [("a", JSValue.num 1)] "b" = false := by
  decide

/-- C9 amended: every key of the descriptor is present in the resolved
bag; the bag key space is the union of the descriptor and override key
spaces, and it coincides with the descriptor key space exactly when the
override introduces no key outside the descriptor. -/
theorem c9_key_space_amended (D O : JSObj) (k : String)
    (hnd : (O.map Prod.fst).Nodup) :
    hasKey (defineFnResolve D (.obj O)).1 k = (hasKey O k || hasKey D k)
      ∧ hasKey (fnWithDefaultsResolve D (.obj O)).1 k
        = (hasKey O k || hasKey D k)
      ∧ (hasKey D k = true → hasKey (defineFnResolve D (.obj O)).1 k = true)
      ∧ ((∀ kx, hasKey O kx = true → hasKey D kx = true)
          → hasKey (defineFnResolve D (.obj O)).1 k = hasKey D k) := by
  have hs : hasKey (defineFnResolve D (.obj O)).1 k
      = (hasKey O k || hasKey D k) := hasKey_spread2 D O hnd k
  refine ⟨hs, hs, ?_, ?_⟩
  · intro hD
    rw [hs, hD, Bool.or_true]
  · intro hsub
    rw [hs]
    cases hO : hasKey O k with
    | false => rw [Bool.false_or]
    | true => rw [hsub k hO, Bool.true_or]

theorem c9_key_space_amended_witness :
    ([("a", JSValue.num 5)].map Prod.fst).Nodup
      ∧ (hasKey (defineFnResolve [("a", JSValue.num 1)]
            (.obj [("a", JSValue.num 5)])).1 "a"
          = (hasKey [("a", JSValue.num 5)] "a"
              || hasKey [("a", JSValue.num 1)] "a")
        ∧ hasKey (fnWithDefaultsResolve [("a", JSValue.num 1)]
              (.obj [("a", JSValue.num 5)])).1 "a"
          = (hasKey [("a", JSValue.num 5)] "a"
              || hasKey [("a", JSValue.num 1)] "a")
        ∧ (hasKey [("a", JSValue.num 1)] "a" = true
            → hasKey (defineFnResolve [("a", JSValue.num 1)]
                (.obj [("a", JSValue.num 5)])).1 "a" = true)
        ∧ ((∀ kx, hasKey [("a", JSValue.num 5)] kx = true
              → hasKey [("a", JSValue.num 1)] kx = true)
            → hasKey (defineFnResolve [("a", JSValue.num 1)]
                  (.obj [("a", JSValue.num 5)])).1 "a"
              = hasKey [("a", JSValue.num 1)] "a")) :=
  ⟨by decide,
    c9_key_space_amended [("a", JSValue.num 1)] [("a", JSValue.num 5)] "a"
      (by decide)⟩

/-- C10: an override key explicitly bound to the undefined value wins over
the default at that key — presence of the key in the override, not
definedness of its value, decides precedence, for both the `defineFn` and
the `fnWithDefaults` constructor. -/
theorem c10_undefined_override_wins (D O : JSObj) (k : String) (v : JSValue)
    (hnd : (O.map Prod.fst).Nodup)
    (hD : getOwn D k = some v)
    (hO : getOwn O k = some JSValue.undef) :
    getOwn (defineFnResolve D (.obj O)).1 k = some JSValue.undef
      ∧ getOwn (fnWithDefaultsResolve D (.obj O)).1 k = some JSValue.undef := by
  have hg := getOwn_spread2 D O hnd k
  have hk : hasKey O k = true := by simp [hasKey, hO]
  rw [hk] at hg
  simp only [if_pos] at hg
  rw [hO] at hg
  exact ⟨hg, hg⟩

theorem c10_undefined_override_wins_witness :
    ([("a", JSValue.undef)].map Prod.fst).Nodup
      ∧ getOwn [("a", JSValue.num 1)] "a" = some (JSValue.num 1)
      ∧ getOwn [("a", JSValue.undef)] "a" = some JSValue.undef
      ∧ (getOwn (defineFnResolve [("a", JSValue.num 1)]
            (.obj [("a", JSValue.undef)])).1 "a" = some JSValue.undef
        ∧ getOwn (fnWithDefaultsResolve [("a", JSValue.num 1)]
              (.obj [("a", JSValue.undef)])).1 "a" = some JSValue.undef) :=
  ⟨by decide, by decide, by decide,
    c10_undefined_override_wins [("a", JSValue.num 1)] [("a", JSValue.undef)]
      "a" (JSValue.num 1) (by decide) (by decide) (by decide)⟩
